import Mathlib

/-!
Shallow embedding of the Jiki repository (src/ising.rs and src/topology.rs).

Modelling conventions:
* `f64` arithmetic is modelled exactly by `Frac`, unreduced integer fractions
  with the usual rational semantics.  Every numeric value the claims compare
  is an exact small decimal, so neither rounding nor overflow plays any role;
  `Frac` is used (rather than Mathlib's `ℚ`) so that every concrete model
  below evaluates by `decide` inside the kernel.
* Rust `Result<T, &str>` together with the pervasive `.unwrap()` calls is
  modelled by `RRes`: `ok`, `err msg`, and `crash` for a Rust panic
  (`unwrap` on `None`/`Err`).
* `HashMap<Vec<usize>, Spin>` is modelled as an association list built in the
  insertion order of `Ising::new`; `HashSet<OpenSet>` as a duplicate-free list
  in insertion order.  Iteration order of these containers is unspecified in
  Rust; every place the embedding consumes them is either order-insensitive
  (sums) or insensitive for the concrete fixtures used below.
* `f64::exp` and the RNG draws of `metropolis_stepper` are taken as inputs
  (an oracle function `ef` for `exp`, the chosen site `idx`, the uniform
  draw `r`), matching the claims, which treat the random draws as inputs.
-/

namespace Jiki

/-- Exact rational value `num / den`, kept unreduced.  This models the `f64`
values of the source: all values arising in the claims are small exact
decimals, far inside the range where `f64` arithmetic is exact.  Equality of
values (`==`, as in the source's `f64` comparisons) is semantic,
by cross-multiplication; `den = 0` (the image of a division by zero, NaN in
`f64`) never reaches a comparison in any theorem below. -/
structure Frac where
  num : Int
  den : Int
deriving DecidableEq

def Frac.add (a b : Frac) : Frac := ⟨a.num * b.den + b.num * a.den, a.den * b.den⟩

def Frac.sub (a b : Frac) : Frac := ⟨a.num * b.den - b.num * a.den, a.den * b.den⟩

def Frac.mul (a b : Frac) : Frac := ⟨a.num * b.num, a.den * b.den⟩

def Frac.div (a b : Frac) : Frac := ⟨a.num * b.den, a.den * b.num⟩

def Frac.neg (a : Frac) : Frac := ⟨-a.num, a.den⟩

/-- Strict order on fraction values (`<` of the represented rationals, for
nonzero denominators of either sign). -/
def Frac.blt (a b : Frac) : Bool :=
  (a.num * b.den - b.num * a.den) * (a.den * b.den) < 0

/-- Semantic value equality (the source's `f64` `==`). -/
def Frac.beq (a b : Frac) : Bool := a.num * b.den == b.num * a.den

def Frac.ofNat (n : Nat) : Frac := ⟨n, 1⟩

instance : Add Frac := ⟨Frac.add⟩

instance : Sub Frac := ⟨Frac.sub⟩

instance : Mul Frac := ⟨Frac.mul⟩

instance : Div Frac := ⟨Frac.div⟩

instance : Neg Frac := ⟨Frac.neg⟩

instance : BEq Frac := ⟨Frac.beq⟩

instance (n : Nat) : OfNat Frac n := ⟨⟨n, 1⟩⟩

abbrev LatticePoint := List Nat

abbrev OpenSet := List LatticePoint

/-- Rust computation outcome: `ok`, `Err(msg)`, or a panic (`crash`). -/
inductive RRes (α : Type) where
  | ok : α → RRes α
  | err : String → RRes α
  | crash : RRes α
deriving DecidableEq

def RRes.isOk {α : Type} : RRes α → Bool
  | .ok _ => true
  | _ => false

inductive Spin where
  | Up : Spin
  | Down : Spin
deriving DecidableEq

/-- The `match spin { Up => 1.0, Down => -1.0 }` mapping used throughout the source. -/
def Spin.val : Spin → Frac
  | .Up => 1
  | .Down => -1

/-- The `Up <-> Down` match performed inline in `metropolis_stepper`. -/
def Spin.flip : Spin → Spin
  | .Up => .Down
  | .Down => .Up

/-- `pub const BOLTZMANN: f64 = 1.380649e-23;` (exactly `1380649 / 10^29`). -/
def BOLTZMANN : Frac := ⟨1380649, 10 ^ 29⟩

structure Lattice where
  dimension : Nat
  size : List Nat
deriving DecidableEq

/-- Cartesian product of per-axis ranges in the order produced by
`multi_cartesian_product` (first axis slowest). -/
def cartesianProduct : List (List Nat) → List (List Nat)
  | [] => [[]]
  | r :: rs => r.flatMap fun i => (cartesianProduct rs).map fun p => i :: p

/-- The per-axis ranges `(0..dimension).map(|d| 0..size[d])`.  (Indexing past
the end of `size` would panic in Rust; a well-formed lattice has
`size.length = dimension`, and no theorem below leaves that case.) -/
def Lattice.axis_ranges (lat : Lattice) : List (List Nat) :=
  (List.range lat.dimension).map fun d => List.range (lat.size.getD d 0)

/-- `Lattice::all_points`.  `multi_cartesian_product` over zero factors yields
an empty iterator in itertools, hence the `dimension = 0` case. -/
def Lattice.all_points (lat : Lattice) : List LatticePoint :=
  if lat.dimension = 0 then [] else cartesianProduct lat.axis_ranges

/-- `pub fn abs_distance(a: usize, b: usize) -> usize`. -/
def abs_distance (a b : Nat) : Nat :=
  if a > b then a - b else b - a

structure Ising where
  lattice : Lattice
  spins : List (LatticePoint × Spin)
  coupling : Frac
  applied_field : Frac
  temperature : Frac
deriving DecidableEq

/-- `Ising::new`: every lattice point is mapped to `Spin::Up`. -/
def Ising.new (lattice : Lattice) (coupling applied_field temperature : Frac) : Ising :=
  { lattice := lattice
    spins := lattice.all_points.map fun p => (p, Spin.Up)
    coupling := coupling
    applied_field := applied_field
    temperature := temperature }

/-- The bounds test `idx.iter().zip(&self.lattice.size).any(|(&i, &cap)| i >= cap)`
shared by `get_spin`, `set_spin`, `nearest_neighbor`, `local_energy`,
`correlation` and `Observable::compute`.  Note `zip` truncates to the shorter
of the two lists, exactly as Rust's `zip` does. -/
def idxOutOfBounds (lat : Lattice) (idx : LatticePoint) : Bool :=
  (idx.zip lat.size).any fun ic => ic.2 ≤ ic.1

/-- `Ising::get_spin`: after the bounds test, `self.spins.get(&idx.to_vec()).unwrap()`
panics when the key is absent from the map. -/
def Ising.get_spin (m : Ising) (idx : LatticePoint) : RRes Spin :=
  if idxOutOfBounds m.lattice idx then .err "Invalid Index"
  else
    match m.spins.lookup idx with
    | some s => .ok s
    | none => .crash

/-- `Ising::set_spin`: after the bounds test the source runs
`self.spins.get(idx).replace(&spin);`, i.e. `Option::replace` on the temporary
`Option<&Spin>` returned by `get`.  This mutates the temporary, not the map:
the spin mapping is left unchanged, and `Ok(())` is returned (also when the
key is absent, since `Option::replace` works on a `None` as well). -/
def Ising.set_spin (m : Ising) (idx : LatticePoint) (_spin : Spin) : RRes Unit × Ising :=
  if idxOutOfBounds m.lattice idx then (.err "Invalid Index", m)
  else (.ok (), m)

/-- `Ising::nearest_neighbor`: filters the keys of the spin map by Manhattan
distance exactly 1 (the per-coordinate `zip` again truncates). -/
def Ising.nearest_neighbor (m : Ising) (idx : LatticePoint) : RRes (List LatticePoint) :=
  if idxOutOfBounds m.lattice idx then .err "Invalid Index"
  else
    .ok ((m.spins.map Prod.fst).filter fun node =>
      ((node.zip idx).map fun ni => abs_distance ni.1 ni.2).sum == 1)

/-- The neighbour-energy sum of `local_energy`:
`-neighbor_spin * local_spin * self.coupling` per neighbour, where
`self.spins.get(nidx).unwrap()` panics (`none`) if a neighbour key is absent. -/
def Ising.neighborEnergySum (m : Ising) (local_spin : Frac) : List LatticePoint → Option Frac
  | [] => some 0
  | nidx :: rest =>
    match m.spins.lookup nidx, m.neighborEnergySum local_spin rest with
    | some nsp, some acc => some (-nsp.val * local_spin * m.coupling + acc)
    | _, _ => none

/-- `Ising::local_energy`. -/
def Ising.local_energy (m : Ising) (idx : LatticePoint) : RRes Frac :=
  if idxOutOfBounds m.lattice idx then .err "Invalid Index"
  else
    match m.get_spin idx with
    | .ok s =>
      match m.nearest_neighbor idx with
      | .ok ns =>
        match m.neighborEnergySum s.val ns with
        | some neighbor_energy => .ok (-m.applied_field * s.val + neighbor_energy)
        | none => .crash
      | _ => .crash
    | _ => .crash

/-- The sum in `total_energy`: `self.local_energy(idx).unwrap()` over all
entries of the spin map (`unwrap` panics on `Err`). -/
def Ising.localEnergySum (m : Ising) : List (LatticePoint × Spin) → Option Frac
  | [] => some 0
  | e :: rest =>
    match m.local_energy e.1, m.localEnergySum rest with
    | .ok v, some acc => some (v + acc)
    | _, _ => none

/-- `Ising::total_energy`: the naive sum of `local_energy` over every entry of
the spin map (no halving of the pairwise term). -/
def Ising.total_energy (m : Ising) : Option Frac :=
  m.localEnergySum m.spins

/-- `Ising::magnetization`. -/
def Ising.magnetization (m : Ising) : Frac :=
  (m.spins.map fun ps => ps.2.val).foldr Frac.add 0 / Frac.ofNat m.spins.length

/-- The neighbour sum of `correlation`: `self.get_spin(each).unwrap()` per
neighbour, mapped through `{ Up => 1.0 * spin, Down => -1.0 * spin }`. -/
def Ising.neighborCorrSum (m : Ising) (spin : Frac) : List LatticePoint → Option Frac
  | [] => some 0
  | p :: rest =>
    match m.get_spin p, m.neighborCorrSum spin rest with
    | .ok s, some acc => some (s.val * spin + acc)
    | _, _ => none

/-- `Ising::correlation`.  The division by `neighbors.len()` is performed
unconditionally; there is no guard against an empty neighbour list (in `f64`
that division produces NaN; here it produces a `Frac` with denominator 0 —
the fact the claims probe is only that the function returns `ok` rather than
failing). -/
def Ising.correlation (m : Ising) (idx : LatticePoint) : RRes Frac :=
  if idxOutOfBounds m.lattice idx then .err "Invalid Index"
  else
    match m.get_spin idx with
    | .ok s =>
      match m.nearest_neighbor idx with
      | .ok neighbors =>
        match m.neighborCorrSum s.val neighbors with
        | some total =>
          .ok (total / Frac.ofNat neighbors.length - m.magnetization * m.magnetization)
        | none => .crash
      | _ => .crash
    | _ => .crash

/-- `Ising::metropolis_stepper`, with the randomly chosen site `idx`, the
uniform draw `r` and the exponential function `ef` supplied as inputs.
The source discards the `Result` of both `set_spin` calls, so only the
(unchanged) state component `.2` is threaded through; `.unwrap()` on the two
`local_energy` calls and on `get_spin` panics (`none`) on `Err`.  Branch
structure of the acceptance test, verbatim from the source:
`if dE > 0.0 && r > (-dE/(BOLTZMANN*T)).exp() {} else if dE < 0.0 {} else { flip back }`. -/
def Ising.metropolis_stepper (m : Ising) (idx : LatticePoint) (r : Frac) (ef : Frac → Frac) :
    Option Ising :=
  match m.local_energy idx with
  | .ok init_energy =>
    match m.get_spin idx with
    | .ok old_spin =>
      match ((m.set_spin idx old_spin.flip).2).local_energy idx with
      | .ok after_energy =>
        if (Frac.blt 0 (after_energy - init_energy) &&
            Frac.blt (ef (-(after_energy - init_energy) /
              (BOLTZMANN * ((m.set_spin idx old_spin.flip).2).temperature))) r) = true then
          some ((m.set_spin idx old_spin.flip).2)
        else if Frac.blt (after_energy - init_energy) 0 = true then
          some ((m.set_spin idx old_spin.flip).2)
        else
          some ((((m.set_spin idx old_spin.flip).2).set_spin idx old_spin.flip.flip).2)
      | _ => none
    | _ => none
  | _ => none

/-- `HashSet::insert` on the basis, modelled on a duplicate-free list kept in
insertion order. -/
def hsInsert (s : OpenSet) (l : List OpenSet) : List OpenSet :=
  if s ∈ l then l else l ++ [s]

structure Topology where
  lattice : Lattice
  basis : List OpenSet
deriving DecidableEq

/-- `Topology::new`: inserts the empty set and the full-lattice set.  The
trailing `...iter().map(|p| basis.insert(vec![p.to_vec()]))` only builds a
lazy iterator that is never consumed (`Iterator::map` is lazy and its result
is dropped), so no per-point singleton is ever inserted. -/
def Topology.new (lat : Lattice) : Topology :=
  { lattice := lat
    basis := hsInsert lat.all_points (hsInsert [] []) }

/-- `Topology::union`: `result` is extended with every element of every input
set and collected back into a `Vec` — a plain concatenation, with no
deduplication. -/
def Topology.union (_t : Topology) (sets : List OpenSet) : OpenSet :=
  if sets.isEmpty then []
  else sets.foldl (fun result set => result ++ set) []

inductive Observable where
  | Energy : Observable
  | Spin : Observable
  | Correlation : Observable
deriving DecidableEq

/-- `Observable::compute` (module `sheaf`): bounds test, then the observable
value; the inner `.unwrap()` calls panic on `Err`. -/
def Observable.compute (ising : Ising) (idx : LatticePoint) (obs : Observable) : RRes Frac :=
  if idxOutOfBounds ising.lattice idx then .err "Invalid Index"
  else
    match obs with
    | .Energy =>
      match ising.local_energy idx with
      | .ok v => .ok v
      | _ => .crash
    | .Spin =>
      match ising.get_spin idx with
      | .ok s => .ok s.val
      | _ => .crash
    | .Correlation =>
      match ising.correlation idx with
      | .ok v => .ok v
      | _ => .crash

/-- `type Section = BTreeMap<LatticePoint, f64>`, modelled as an association
list sorted by key in the `Ord` order of `Vec<usize>` (lexicographic, with a
strict prefix ordered first). -/
abbrev Section := List (LatticePoint × Frac)

/-- Rust `Vec<usize>` lexicographic order (strict). -/
def ptLt : LatticePoint → LatticePoint → Bool
  | [], [] => false
  | [], _ :: _ => true
  | _ :: _, [] => false
  | a :: arest, b :: brest =>
    if a < b then true else if b < a then false else ptLt arest brest

/-- `BTreeMap::insert`, keeping the association list key-sorted. -/
def secInsert (k : LatticePoint) (v : Frac) : Section → Section
  | [] => [(k, v)]
  | (k2, v2) :: rest =>
    if k = k2 then (k, v) :: rest
    else if ptLt k k2 then (k, v) :: (k2, v2) :: rest
    else (k2, v2) :: secInsert k v rest

/-- `BTreeMap::extend`: inserts every entry of `src` into `base`. -/
def extendSec (base src : Section) : Section :=
  src.foldl (fun acc pv => secInsert pv.1 pv.2 acc) base

structure Sheaf where
  topology : Topology
  energy_sections : List (OpenSet × Section)
  spin_sections : List (OpenSet × Section)
  correlation_sections : List (OpenSet × Section)
deriving DecidableEq

/-- The observable-indexed choice among the three section stores.  The source
repeats each algorithm three times in a `match obs` with one arm per store;
this selector expresses those three arms once. -/
def Sheaf.sectionsFor (sh : Sheaf) : Observable → List (OpenSet × Section)
  | .Energy => sh.energy_sections
  | .Spin => sh.spin_sections
  | .Correlation => sh.correlation_sections

/-- One section of `Sheaf::new`: `Observable::compute(...).unwrap()` at every
point of the open set (`none` = panic). -/
def buildSection (ising : Ising) (obs : Observable) (openset : OpenSet) : Option Section :=
  openset.foldl
    (fun acc point =>
      match acc, Observable.compute ising point obs with
      | some sec, .ok v => some (secInsert point v sec)
      | _, _ => none)
    (some [])

/-- The per-open-set loop of `Sheaf::new` for one observable store. -/
def buildSections (ising : Ising) (obs : Observable) :
    List OpenSet → Option (List (OpenSet × Section))
  | [] => some []
  | o :: rest =>
    match buildSection ising obs o, buildSections ising obs rest with
    | some sec, some tl => some ((o, sec) :: tl)
    | _, _ => none

/-- `Sheaf::new`: one cached section per basis open set and observable. -/
def Sheaf.new (topology : Topology) (ising : Ising) : Option Sheaf :=
  match buildSections ising .Energy topology.basis,
      buildSections ising .Spin topology.basis,
      buildSections ising .Correlation topology.basis with
  | some es, some ss, some cs =>
    some { topology := topology, energy_sections := es, spin_sections := ss,
           correlation_sections := cs }
  | _, _, _ => none

/-- `Sheaf::get_section`: for each point of `open_set`, find a cached basis
section whose open set contains the point and copy its value (points found
nowhere are silently skipped). -/
def Sheaf.get_section (sh : Sheaf) (open_set : OpenSet) (obs : Observable) : Section :=
  open_set.foldl
    (fun sec point =>
      match (sh.sectionsFor obs).find? (fun bs => bs.1.contains point) with
      | some bs =>
        match bs.2.lookup point with
        | some v => secInsert point v sec
        | none => sec
      | none => sec)
    []

/-- `Sheaf::get_oset_from_section`: when the section is not cached the result
is `Err("Invalid section")`.  Otherwise the source runs
`self...iter().filter_map(|(k, _sec)| Some(oset = k.to_vec()));` — a lazy
iterator that is dropped without ever being consumed, so the side effect
assigning `oset` never runs and `oset` keeps its initial empty value:
every cached section yields `Ok(vec![])`. -/
def Sheaf.get_oset_from_section (sh : Sheaf) (sec : Section) (obs : Observable) : RRes OpenSet :=
  if ((sh.sectionsFor obs).any fun ks => ks.2 == sec) = false then
    .err "Invalid section"
  else
    .ok []

/-- `Sheaf::restrict`: subset test, then a copy of the section over
`larger_oset`; the copying loop inserts every entry and never consults
`target_oset`.  (The source calls `self.get_section(&larger_oset)` without an
observable argument; the observable is supplied here as a parameter.) -/
def Sheaf.restrict (sh : Sheaf) (larger_oset : OpenSet) (target_oset : OpenSet)
    (obs : Observable) : RRes Section :=
  if (target_oset.all fun point => larger_oset.contains point) = false then
    .err "Target Open Set is not a subset of the provided start set!"
  else
    .ok (extendSec [] (sh.get_section larger_oset obs))

/-- The overlap-agreement test of `glue`:
`restricted_first.iter().zip(restricted_second).all(|((_, a), (_, b))| a == b)`. -/
def zipValuesEq (a b : Section) : Bool :=
  (a.zip b).all fun pq => pq.1.2 == pq.2.2

/-- `Sheaf::glue`.  (The source consults the non-existent field
`self.sections` for the cache test and calls `get_oset_from_section` without
an observable; the observable is supplied here as a parameter.)  The
`first_oset.iter().filter(...)` expression that would push shared points into
`intersection` is bound to `_` and never consumed (`Iterator::filter` is
lazy), so `intersection` keeps its initial empty value; both
`get_oset_from_section` calls return `Ok(vec![])` for cached sections (see
above) and are `.unwrap()`ed, panicking on `Err`. -/
def Sheaf.glue (sh : Sheaf) (first_section second_section : Section)
    (obs : Observable) : RRes Section :=
  if ((sh.sectionsFor obs).any fun ks =>
      ks.2 == first_section || ks.2 == second_section) = false then
    .err "Invalid sections!"
  else
    match sh.get_oset_from_section first_section obs,
        sh.get_oset_from_section second_section obs with
    | .ok first_oset, .ok second_oset =>
      if (first_oset.any fun point => second_oset.contains point) = false then
        .err "The open sets do not overlap"
      else
        let intersection : OpenSet := []
        let restricted_first := first_section.filter fun pv => intersection.contains pv.1
        let restricted_second := second_section.filter fun pv => intersection.contains pv.1
        if zipValuesEq restricted_first restricted_second = false then
          .err "the sections do not agree on the overlap"
        else
          let remaining_second := second_section.filter fun pv => !intersection.contains pv.1
          let remaining_first := first_section.filter fun pv => !intersection.contains pv.1
          .ok (extendSec (extendSec (extendSec [] remaining_first) remaining_second)
            restricted_first)
    | _, _ => .crash

/-! Concrete fixtures used by the theorems: small lattices with all spins
`Up`, coupling `J = 1`, applied field `h = 0`, temperature `T = 1`. -/

def lat2 : Lattice := ⟨1, [2]⟩

def lat4 : Lattice := ⟨1, [4]⟩

def model2 : Ising := Ising.new lat2 1 0 1

def model4 : Ising := Ising.new lat4 1 0 1

def m22 : Ising := Ising.new ⟨2, [2, 2]⟩ 1 0 1

def m11 : Ising := Ising.new ⟨1, [1]⟩ 1 0 1

def top2 : Topology := Topology.new lat2

def sheaf2 : Sheaf := (Sheaf.new top2 model2).getD ⟨top2, [], [], []⟩

/-- `set_spin` returns the model unchanged: the `Option::replace` call acts on
a temporary and never touches the spin map. -/
theorem set_spin_state (m : Ising) (idx : LatticePoint) (s : Spin) :
    (m.set_spin idx s).2 = m := by
  unfold Ising.set_spin
  split <;> rfl

/-- Claim C1: the set/get round trip fails.  `set_spin` leaves the spin map of
every model unchanged, so on the all-`Up` two-site chain, `set_spin([0], Down)`
followed by `get_spin([0])` returns `Up`, not `Down`. -/
theorem set_then_get_returns_old_spin :
    (∀ (m : Ising) (p : LatticePoint) (s : Spin), (m.set_spin p s).2 = m) ∧
    (model2.set_spin [0] Spin.Down).2.get_spin [0] = RRes.ok Spin.Up ∧
    Spin.Up ≠ Spin.Down :=
  ⟨set_spin_state, by decide, by decide⟩

/-- Claim C2: the Metropolis step never keeps any flip.  For every model,
chosen site, uniform draw and exponential oracle, the step either panics or
returns the model unchanged: the flip applied through `set_spin` never lands,
so `ΔE` is always 0 and the final "revert" branch runs.  Concretely, on the
all-`Up` two-site chain at site `[0]` with draw `r = 0` the spin stays `Up`,
although a genuine flip there has `ΔE > 0` and `r = 0` lies below every
positive acceptance threshold, so the claim requires the flip to be kept. -/
theorem metropolis_stepper_never_flips :
    (∀ (m : Ising) (idx : LatticePoint) (r : Frac) (ef : Frac → Frac),
        m.metropolis_stepper idx r ef = none ∨ m.metropolis_stepper idx r ef = some m) ∧
    model2.metropolis_stepper [0] 0 (fun _ => 1) = some model2 ∧
    model2.get_spin [0] = RRes.ok Spin.Up := by
  refine ⟨?_, by decide, by decide⟩
  intro m idx r ef
  simp only [Ising.metropolis_stepper, set_spin_state]
  rcases m.local_energy idx with v | msg | _
  · rcases m.get_spin idx with sp | msg2 | _
    · dsimp only
      split
      · right; rfl
      · split
        · right; rfl
        · right; rfl
    · left; rfl
    · left; rfl
  · left; rfl
  · left; rfl

/-- Claim C3: `total_energy` is the naive sum of the per-site local energies.
On the all-`Up` chain of length 4 with `h = 0`, `J = 1` it returns `-6`
(each of the three bonds counted from both endpoints), not the `-3` the
claim requires. -/
theorem total_energy_counts_bonds_twice :
    model4.total_energy = some (-6) ∧ Frac.beq (-6) (-3) = false :=
  ⟨by decide, by decide⟩

/-- Claim C4: `restrict` fails exactly as the claim says for the subset test,
but on success it copies the whole section over the larger open set instead
of filtering it to the target: restricting the full two-site section to just
`[0]` still contains the entry for `[1]`. -/
theorem restrict_ignores_target :
    Sheaf.new top2 model2 = some sheaf2 ∧
    sheaf2.restrict [[0], [1]] [[0]] Observable.Spin = RRes.ok [([0], 1), ([1], 1)] ∧
    sheaf2.restrict [[0]] [[1]] Observable.Spin =
      RRes.err "Target Open Set is not a subset of the provided start set!" :=
  ⟨by decide, by decide, by decide⟩

/-- Claim C5: sections over the same (full) open set whose values disagree at
the shared point `[0]` do not make `glue` fail with the overlap-mismatch
error: `glue` panics instead, because `get_oset_from_section` rejects the
non-cached section and the result is `.unwrap()`ed. -/
theorem glue_mismatch_crashes :
    ([([0], 1), ([1], 1)] : Section).lookup [0] = some 1 ∧
    ([([0], -1), ([1], -1)] : Section).lookup [0] = some (-1) ∧
    sheaf2.glue [([0], 1), ([1], 1)] [([0], -1), ([1], -1)] Observable.Spin = RRes.crash :=
  ⟨by decide, by decide, by decide⟩

/-- `get_oset_from_section` either errors or returns the empty open set (its
`filter_map` is never consumed, so `oset` keeps its initial empty value). -/
theorem get_oset_from_section_shape (sh : Sheaf) (sec : Section) (obs : Observable) :
    sh.get_oset_from_section sec obs = RRes.ok [] ∨
    sh.get_oset_from_section sec obs = RRes.err "Invalid section" := by
  unfold Sheaf.get_oset_from_section
  split
  · exact Or.inr rfl
  · exact Or.inl rfl

/-- Claim C6: `glue` never returns a section at all — for every sheaf, pair of
sections and observable it returns an error or panics — so no order of
pairwise gluing of three mutually-agreeing overlapping sections produces a
(let alone the same) glued section.  Concretely, gluing the cached full-set
spin section with itself fails with the no-overlap error. -/
theorem glue_never_returns_a_section :
    (∀ (sh : Sheaf) (f s : Section) (obs : Observable), (sh.glue f s obs).isOk = false) ∧
    sheaf2.glue [([0], 1), ([1], 1)] [([0], 1), ([1], 1)] Observable.Spin =
      RRes.err "The open sets do not overlap" := by
  refine ⟨?_, by decide⟩
  intro sh f s obs
  unfold Sheaf.glue
  split
  · rfl
  · rcases get_oset_from_section_shape sh f obs with h1 | h1 <;>
      rcases get_oset_from_section_shape sh s obs with h2 | h2 <;>
      rw [h1, h2] <;> rfl

/-- Membership in the concatenating fold used by `Topology::union`. -/
theorem mem_foldl_append (p : LatticePoint) :
    ∀ (sets : List OpenSet) (acc : OpenSet),
      (p ∈ sets.foldl (fun result set => result ++ set) acc ↔
        p ∈ acc ∨ ∃ s ∈ sets, p ∈ s) := by
  intro sets
  induction sets with
  | nil => intro acc; simp
  | cons hd tl ih =>
    intro acc
    rw [List.foldl_cons, ih (acc ++ hd)]
    simp only [List.mem_append, List.mem_cons]
    constructor
    · rintro (⟨h | h⟩ | ⟨s, hs, hp⟩)
      · exact Or.inl h
      · exact Or.inr ⟨hd, Or.inl rfl, h⟩
      · exact Or.inr ⟨s, Or.inr hs, hp⟩
    · rintro (h | ⟨s, rfl | hs, hp⟩)
      · exact Or.inl (Or.inl h)
      · exact Or.inl (Or.inr hp)
      · exact Or.inr ⟨s, hs, hp⟩

/-- Claim C7 counterexample: `union` does not deduplicate — the union of two
copies of the singleton open set `[[0]]` contains the point `[0]` twice. -/
theorem union_keeps_duplicates :
    (Topology.new lat2).union [[[0]], [[0]]] = [[0], [0]] ∧
    ((Topology.new lat2).union [[[0]], [[0]]]).count [0] = 2 :=
  ⟨by decide, by decide⟩

/-- Claim C7 (amended): `union` returns the concatenation of the input sets —
a point belongs to the result exactly when it belongs to at least one input
set, but duplicates are not removed. -/
theorem union_mem_iff (t : Topology) (sets : List OpenSet) (p : LatticePoint) :
    p ∈ t.union sets ↔ ∃ s ∈ sets, p ∈ s := by
  unfold Topology.union
  split
  · next h =>
    rw [List.isEmpty_iff] at h
    subst h
    simp
  · rw [mem_foldl_append]
    simp

/-- Claim C8: the truncating `zip` in the bounds test lets length-mismatched
points through.  On the 2x2 two-dimensional lattice the one-coordinate point
`[0]` passes the test, after which `get_spin` panics on the missing key while
`set_spin` returns `Ok(())`; the over-long point `[0, 0, 5]` likewise makes
`get_spin` panic.  None of them returns the out-of-bounds error the claim
requires. -/
theorem bounds_check_truncates :
    idxOutOfBounds m22.lattice [0] = false ∧
    m22.get_spin [0] = RRes.crash ∧
    (m22.set_spin [0] Spin.Down).1 = RRes.ok () ∧
    m22.get_spin [0, 0, 5] = RRes.crash :=
  ⟨by decide, by decide, by decide, by decide⟩

/-- Claim C9: on the one-site lattice the valid point `[0]` has no neighbours,
yet `correlation` returns `ok` — the division by the neighbour count is
executed with count zero (NaN in `f64`) instead of being guarded or failing. -/
theorem correlation_unguarded_zero_neighbors :
    m11.nearest_neighbor [0] = RRes.ok [] ∧
    (m11.correlation [0]).isOk = true :=
  ⟨by decide, by decide⟩

/-- Claim C10: on any lattice with at least two points, the basis created by
`Topology::new` is exactly the two-element list of the empty set and the
full-lattice set, and no per-point singleton belongs to it (the loop that
would insert singletons builds a lazy iterator that is never consumed). -/
theorem topology_new_basis_two_elements (lat : Lattice)
    (h : 2 ≤ lat.all_points.length) :
    (Topology.new lat).basis = [[], lat.all_points] ∧
    (Topology.new lat).basis.length = 2 ∧
    ∀ p : LatticePoint, [p] ∉ (Topology.new lat).basis := by
  have hne : lat.all_points ≠ [] := by
    intro he
    rw [he] at h
    simp at h
  have hb : (Topology.new lat).basis = [[], lat.all_points] := by
    unfold Topology.new hsInsert
    simp [hne]
  refine ⟨hb, by rw [hb]; rfl, ?_⟩
  intro p hp
  rw [hb] at hp
  rcases List.mem_cons.mp hp with h1 | h1
  · exact List.cons_ne_nil p [] h1
  · rcases List.mem_cons.mp h1 with h2 | h2
    · have hlen := congrArg List.length h2
      simp at hlen
      omega
    · simp at h2

/-- Witness for C10 at the two-site chain: the hypothesis holds and the
singleton `[[0]]` is not a basis element. -/
theorem topology_new_basis_two_elements_witness :
    2 ≤ lat2.all_points.length ∧ [[0]] ∉ (Topology.new lat2).basis :=
  ⟨by decide, (topology_new_basis_two_elements lat2 (by decide)).2.2 [0]⟩

end Jiki
